import Mathlib

/-!
Shallow embedding of the gamblor-app backend game engine.

The definitions below are translated from `src/backend/routers/games.py`
(endpoints `update_game`, `create_pick`, `amend_pick`, `adjudicate_outcome`)
and the table definitions in `src/backend/models.py`.

Modelling conventions:
- UUID primary and foreign keys are modelled as `Nat`; rows inserted by the
  modelled endpoints draw their ids from a `fresh` counter on the state.
- Timestamps are modelled as `Nat`; every endpoint takes a `now` argument
  standing for `datetime.now(timezone.utc)`.
- A raised `HTTPException` aborts the request before `session.commit()`, so the
  uncommitted session is discarded; accordingly each endpoint is a function
  `DB → ... → Except ApiErr (DB × response)` and an error leaves the state
  unchanged.  Each distinct raise reason gets its own `ApiErr` constructor.
- Money amounts are `Int` (the columns are signed integers); the pot obtained
  by python `abs` is an `Int.natAbs`.
- Columns never consulted by any of the four modelled endpoints are elided:
  row ids of `Turn`, `LedgerEntry`, `PickAmendment` and `Event` rows (those
  tables are only appended to, never looked up by id), the `note` column of
  ledger rows, the JSON `payload` of audit events, `started_at` of innings,
  `pin`/`title` lookups, and the user table (endpoints receive the already
  authenticated `current_user_id`).
-/

namespace Gamblor

/-- Choice and result codes, validated at the boundary by the request pattern
regex limiting them to K, G, F, D, T, N. -/
inductive Code where
  | K | G | F | D | T | N
deriving DecidableEq, Repr

/-- Row of the `games` table (models.py, class `Game`). -/
structure Game where
  id : Nat
  ante_dollars : Int
  adjudication_mode : String
  deadline_seconds : Option Int
  mlb_game_id : Option String
  status : String
  created_by : Nat
deriving DecidableEq, Repr

/-- Row of the `game_players` table (models.py, class `GamePlayer`). -/
structure GamePlayer where
  id : Nat
  game_id : Nat
  user_id : Nat
  turn_order : Nat
  is_admin : Bool
deriving DecidableEq, Repr

/-- Row of the `innings` table (models.py, class `Inning`); `closed_at = none`
means the inning-half is open. -/
structure Inning where
  id : Nat
  game_id : Nat
  inning_number : Nat
  half : String
  outs : Nat
  between_ab_locked : Bool
  closed_at : Option Nat
deriving DecidableEq, Repr

/-- Row of the `turns` table (models.py, class `Turn`); the latest row (largest
`created_at`) for an inning is the authoritative current turn. -/
structure Turn where
  game_id : Nat
  inning_id : Nat
  current_player_id : Nat
  created_at : Nat
deriving DecidableEq, Repr

/-- Row of the `picks` table (models.py, class `Pick`). -/
structure Pick where
  id : Nat
  game_id : Nat
  inning_id : Nat
  player_id : Nat
  choice_code : Code
  amend_count : Nat
  is_final : Bool
  created_at : Nat
deriving DecidableEq, Repr

/-- Row of the `pick_amendments` table (models.py, class `PickAmendment`). -/
structure PickAmendment where
  game_id : Nat
  inning_id : Nat
  pick_id : Nat
  player_id : Nat
  old_code : Code
  new_code : Code
  fee_dollars : Int
  created_at : Nat
deriving DecidableEq, Repr

/-- Row of the `ledger_entries` table (models.py, class `LedgerEntry`);
`inning_id` and `player_id` are nullable scope columns. -/
structure LedgerEntry where
  game_id : Nat
  inning_id : Option Nat
  player_id : Option Nat
  amount_dollars : Int
  reason : String
  created_at : Nat
deriving DecidableEq, Repr

/-- Row of the `events` audit table (models.py, class `Event`); the JSON
payload is elided. -/
structure AuditEvent where
  game_id : Nat
  type : String
  actor_user_id : Option Nat
  created_at : Nat
deriving DecidableEq, Repr

/-- The shared durable store: one list per table, plus a counter supplying
fresh primary keys for inserted innings and picks. -/
structure DB where
  games : List Game
  players : List GamePlayer
  innings : List Inning
  turns : List Turn
  picks : List Pick
  amendments : List PickAmendment
  ledger : List LedgerEntry
  events : List AuditEvent
  fresh : Nat
deriving DecidableEq, Repr

/-- Domain errors; one constructor per distinct `raise HTTPException` site
reason in the four modelled endpoints. -/
inductive ApiErr where
  | gameNotFound
  | gameNotActive
  | notAPlayer
  | onlyAdminsUpdate
  | invalidAdjudicationMode
  | invalidStatus
  | statusOfFinalGame
  | finalizePendingGame
  | inningNotFound
  | inningClosed
  | notYourTurnPick
  | pickNotFound
  | notYourPick
  | amendInningNotFound
  | amendInningClosed
  | notBetweenAtBats
  | onlyCurrentPlayerAmends
  | maxAmendmentsReached
  | newChoiceSame
  | onlyAdminAdjudicates
  | onlyTurnHolderAdjudicates
deriving DecidableEq, Repr

/-- Lookup `session.get(Game, game_id)`. -/
def findGame (db : DB) (game_id : Nat) : Option Game :=
  db.games.find? (fun g => decide (g.id = game_id))

/-- Lookup of the caller's membership row: `select(GamePlayer).where(game_id,
user_id).first()`. -/
def findPlayer (db : DB) (game_id uid : Nat) : Option GamePlayer :=
  db.players.find? (fun p => decide (p.game_id = game_id ∧ p.user_id = uid))

/-- Comparison step for the `ORDER BY created_at DESC ... first()` turn
lookup: keep the later of two turn rows. -/
def laterTurn (a b : Turn) : Turn :=
  if a.created_at < b.created_at then b else a

/-- The authoritative current turn for an inning: the turn row with the
largest `created_at` among rows matching the game and inning. -/
def latestTurn (db : DB) (game_id inning_id : Nat) : Option Turn :=
  match db.turns.filter (fun t => decide (t.game_id = game_id ∧ t.inning_id = inning_id)) with
  | [] => none
  | t :: ts => some (ts.foldl laterTurn t)

/-- Comparison step for `ORDER BY turn_order ... first()`: keep the player
with the smaller turn order. -/
def earlierPlayer (a b : GamePlayer) : GamePlayer :=
  if b.turn_order < a.turn_order then b else a

/-- The first player of a game in turn order, as selected by
`select(GamePlayer).where(game_id).order_by(turn_order)` followed by taking
`players[0]`. -/
def firstByTurnOrder (db : DB) (game_id : Nat) : Option GamePlayer :=
  match db.players.filter (fun p => decide (p.game_id = game_id)) with
  | [] => none
  | p :: ps => some (ps.foldl earlierPlayer p)

/-- Sum of `amount_dollars` over a list of ledger rows
(`func.sum(LedgerEntry.amount_dollars)`, with an empty sum read back as 0). -/
def ledgerSum (l : List LedgerEntry) : Int :=
  l.foldl (fun s e => s + e.amount_dollars) 0

/-- Ledger rows scoped to one inning-half of one game
(`where(game_id == ..., inning_id == ...)`; a SQL equality comparison never
matches a NULL `inning_id`). -/
def inningScoped (db : DB) (game_id inning_id : Nat) : List LedgerEntry :=
  db.ledger.filter (fun e => decide (e.game_id = game_id ∧ e.inning_id = some inning_id))

/-- The pot computed at the start of `adjudicate_outcome` (games.py lines
983-990): `abs` of the sum over every ledger row scoped to the inning,
with no sign restriction on the rows. -/
def settlementPot (db : DB) (game_id inning_id : Nat) : Nat :=
  (ledgerSum (inningScoped db game_id inning_id)).natAbs

/-- Body of the `GameUpdateRequest` payload. -/
structure GameUpdateRequest where
  ante_dollars : Option Int := none
  adjudication_mode : Option String := none
  deadline_seconds : Option Int := none
  mlb_game_id : Option String := none
  status : Option String := none
deriving DecidableEq, Repr

/-- Field-by-field application of a settings patch to a game row, as done by
the `if payload.x is not None` blocks of `update_game`. -/
def applyGamePatch (g : Game) (p : GameUpdateRequest) : Game :=
  { g with
    ante_dollars := p.ante_dollars.getD g.ante_dollars
    adjudication_mode := p.adjudication_mode.getD g.adjudication_mode
    deadline_seconds := match p.deadline_seconds with
      | some d => some d
      | none => g.deadline_seconds
    mlb_game_id := match p.mlb_game_id with
      | some m => some m
      | none => g.mlb_game_id
    status := p.status.getD g.status }

/-- Whether the `changes` dict of `update_game` is nonempty, which decides
whether an audit event is written. -/
def patchHasChanges (p : GameUpdateRequest) : Bool :=
  p.ante_dollars.isSome || p.adjudication_mode.isSome || p.deadline_seconds.isSome
    || p.mlb_game_id.isSome || p.status.isSome

/-- Audit event type chosen by `update_game`: a status change to active or
final renames the generic update event. -/
def updateEventType (p : GameUpdateRequest) : String :=
  match p.status with
  | some s => if s = "active" then "game_started"
              else if s = "final" then "game_finished"
              else "game_updated"
  | none => "game_updated"

/-- Validation of `payload.adjudication_mode` in `update_game`: a supplied
mode outside the two-value enumeration is rejected. -/
def badMode (p : GameUpdateRequest) : Bool :=
  match p.adjudication_mode with
  | some m => decide (m ≠ "admin_only" ∧ m ≠ "trust_turn_holder")
  | none => false

/-- Embedding of the `update_game` endpoint (games.py lines 279-377): admin
check, adjudication-mode validation, status-transition validation, in-place
field updates, one audit event when anything changed. -/
def update_game (db : DB) (now : Nat) (game_id uid : Nat) (payload : GameUpdateRequest) :
    Except ApiErr (DB × Game) :=
  match findGame db game_id with
  | none => .error .gameNotFound
  | some game =>
  match db.players.find? (fun p => decide (p.game_id = game_id ∧ p.user_id = uid ∧ p.is_admin = true)) with
  | none => .error .onlyAdminsUpdate
  | some _ =>
  if badMode payload then .error .invalidAdjudicationMode
  else
  match payload.status with
  | some s =>
    if s ≠ "pending" ∧ s ≠ "active" ∧ s ≠ "final" then .error .invalidStatus
    else if game.status = "final" then .error .statusOfFinalGame
    else if game.status = "pending" ∧ s = "final" then .error .finalizePendingGame
    else
      .ok ({ db with
              games := db.games.map (fun g => if g.id = game_id then applyGamePatch g payload else g)
              events := db.events ++ [⟨game_id, updateEventType payload, some uid, now⟩] },
           applyGamePatch game payload)
  | none =>
    .ok ({ db with
            games := db.games.map (fun g => if g.id = game_id then applyGamePatch g payload else g)
            events := db.events ++
              (if patchHasChanges payload then [⟨game_id, updateEventType payload, some uid, now⟩] else []) },
         applyGamePatch game payload)

/-- Body of the `PickCreateRequest` payload. -/
structure PickCreateRequest where
  inning_id : Nat
  choice_code : Code
deriving DecidableEq, Repr

/-- Response shape of the pick endpoints (`PickResponse`). -/
structure PickResponse where
  id : Nat
  choice_code : Code
  amend_count : Nat
  is_final : Bool
  created_at : Nat
deriving DecidableEq, Repr

/-- Predicate selecting the logical pick row of one player for one inning-half
of one game, as used by the overwrite lookup in `create_pick`. -/
def pickKey (game_id inning_id player_id : Nat) : Pick → Bool :=
  fun p => decide (p.game_id = game_id ∧ p.inning_id = inning_id ∧ p.player_id = player_id)

/-- Embedding of the `create_pick` endpoint (games.py lines 691-787): game
active, caller a player, inning open and owned by the game, caller the
current turn holder; then overwrite the existing pick row in place or insert
a new one with `amend_count = 0`.  There is no check of
`between_ab_locked`. -/
def create_pick (db : DB) (now : Nat) (game_id uid : Nat) (request : PickCreateRequest) :
    Except ApiErr (DB × PickResponse) :=
  match findGame db game_id with
  | none => .error .gameNotFound
  | some game =>
  if game.status ≠ "active" then .error .gameNotActive
  else
  match findPlayer db game_id uid with
  | none => .error .notAPlayer
  | some game_player =>
  match db.innings.find? (fun i => decide (i.id = request.inning_id)) with
  | none => .error .inningNotFound
  | some inning =>
  if inning.game_id ≠ game_id then .error .inningNotFound
  else if inning.closed_at.isSome then .error .inningClosed
  else
  match latestTurn db game_id request.inning_id with
  | none => .error .notYourTurnPick
  | some current_turn =>
  if current_turn.current_player_id ≠ game_player.id then .error .notYourTurnPick
  else
  match db.picks.find? (pickKey game_id request.inning_id game_player.id) with
  | some existing =>
    let updated : Pick :=
      { existing with choice_code := request.choice_code, is_final := true, created_at := now }
    .ok ({ db with
            picks := db.picks.map (fun p => if p.id = existing.id then updated else p)
            events := db.events ++ [⟨game_id, "pick_updated", some uid, now⟩] },
         ⟨updated.id, updated.choice_code, updated.amend_count, updated.is_final, updated.created_at⟩)
  | none =>
    let pick : Pick := ⟨db.fresh, game_id, request.inning_id, game_player.id, request.choice_code, 0, true, now⟩
    .ok ({ db with
            picks := db.picks ++ [pick]
            events := db.events ++ [⟨game_id, "pick_created", some uid, now⟩]
            fresh := db.fresh + 1 },
         ⟨pick.id, pick.choice_code, pick.amend_count, pick.is_final, pick.created_at⟩)

/-- Embedding of the `amend_pick` endpoint (games.py lines 790-912): game
active, caller a player owning the pick, the pick's inning open and
lock-flagged, caller the current turn holder, the D and T amendment cap not
yet reached, and the new code different; then append an amendment record and
a -2 fee ledger entry and bump the pick. -/
def amend_pick (db : DB) (now : Nat) (game_id uid pick_id : Nat) (new_code : Code) :
    Except ApiErr (DB × PickResponse) :=
  match findGame db game_id with
  | none => .error .gameNotFound
  | some game =>
  if game.status ≠ "active" then .error .gameNotActive
  else
  match findPlayer db game_id uid with
  | none => .error .notAPlayer
  | some game_player =>
  match db.picks.find? (fun p => decide (p.id = pick_id)) with
  | none => .error .pickNotFound
  | some pick =>
  if pick.game_id ≠ game_id then .error .pickNotFound
  else if pick.player_id ≠ game_player.id then .error .notYourPick
  else
  match db.innings.find? (fun i => decide (i.id = pick.inning_id)) with
  | none => .error .amendInningNotFound
  | some inning =>
  if inning.closed_at.isSome then .error .amendInningClosed
  else if inning.between_ab_locked = false then .error .notBetweenAtBats
  else
  match latestTurn db game_id pick.inning_id with
  | none => .error .onlyCurrentPlayerAmends
  | some current_turn =>
  if current_turn.current_player_id ≠ game_player.id then .error .onlyCurrentPlayerAmends
  else if (pick.choice_code = Code.D ∨ pick.choice_code = Code.T) ∧ 2 ≤ pick.amend_count then
    .error .maxAmendmentsReached
  else if new_code = pick.choice_code then .error .newChoiceSame
  else
  let amendment : PickAmendment :=
    ⟨game_id, pick.inning_id, pick.id, game_player.id, pick.choice_code, new_code, 2, now⟩
  let fee_entry : LedgerEntry :=
    ⟨game_id, some pick.inning_id, some game_player.id, -2, "amend_fee", now⟩
  let updated : Pick :=
    { pick with choice_code := new_code, amend_count := pick.amend_count + 1 }
  .ok ({ db with
          amendments := db.amendments ++ [amendment]
          ledger := db.ledger ++ [fee_entry]
          picks := db.picks.map (fun p => if p.id = pick.id then updated else p)
          events := db.events ++ [⟨game_id, "pick_amended", some uid, now⟩] },
       ⟨updated.id, updated.choice_code, updated.amend_count, updated.is_final, updated.created_at⟩)

/-- Body of the `AdjudicationRequest` payload. -/
structure AdjudicationRequest where
  inning_id : Nat
  result_code : Code
deriving DecidableEq, Repr

/-- Response shape of the adjudication endpoint (`AdjudicationResponse`,
games.py lines 922-929). -/
structure AdjudicationResponse where
  inning_id : Nat
  result_code : Code
  winners : List Nat
  pot_awarded : Nat
  new_outs : Nat
  inning_closed : Bool
  next_inning_started : Bool
deriving DecidableEq, Repr

/-- Authority check of `adjudicate_outcome`: admin in `admin_only` mode,
current turn holder in `trust_turn_holder` mode, and (as in the source
`if`/`elif` chain) no check at all for any other stored mode string. -/
def adjudicateAuth (db : DB) (game : Game) (game_player : GamePlayer) (inning_id : Nat) :
    Except ApiErr Unit :=
  if game.adjudication_mode = "admin_only" then
    if game_player.is_admin then .ok () else .error .onlyAdminAdjudicates
  else if game.adjudication_mode = "trust_turn_holder" then
    match latestTurn db game.id inning_id with
    | none => .error .onlyTurnHolderAdjudicates
    | some t =>
      if t.current_player_id = game_player.id then .ok () else .error .onlyTurnHolderAdjudicates
  else .ok ()

/-- Modelled from the spec: the source file breaks off inside the three-outs
branch of `adjudicate_outcome` (the insertion of the first `Turn` of the new
half is shown in full for the top-half branch and is cut off mid-statement
for the bottom-half branch).  Per the spec, a fresh Turn pointing at the
first player in turn order is appended for the newly opened half in both
branches, guarded as in the visible branch by the player list being
nonempty. -/
def turnsWithNewHalf (db : DB) (now game_id next_inning_id : Nat) : List Turn :=
  match firstByTurnOrder db game_id with
  | some p => db.turns ++ [⟨game_id, next_inning_id, p.id, now⟩]
  | none => db.turns

/-- Modelled from the spec: the construction of the response at the end of
`adjudicate_outcome` is past the point where the source file breaks off;
the fields follow the `AdjudicationResponse` model (games.py lines 922-929)
and the spec, which lists winners, pot awarded, new outs, whether the
inning closed and whether the next one started. -/
def mkAdjudicationResponse (inning_id : Nat) (result_code : Code) (winners : List Nat)
    (pot_awarded new_outs : Nat) (inning_closed next_inning_started : Bool) :
    AdjudicationResponse :=
  ⟨inning_id, result_code, winners, pot_awarded, new_outs, inning_closed, next_inning_started⟩

/-- The final picks collected for the adjudicated inning (games.py lines
992-998). -/
def finalPicks (db : DB) (game_id inning_id : Nat) : List Pick :=
  db.picks.filter (fun p =>
    decide (p.game_id = game_id ∧ p.inning_id = inning_id ∧ p.is_final = true))

/-- Winner determination (games.py lines 1000-1007): no winners on result N,
otherwise the players of every final pick whose choice matches the result. -/
def adjWinners (db : DB) (game_id : Nat) (request : AdjudicationRequest) : List Nat :=
  if request.result_code ≠ Code.N then
    ((finalPicks db game_id request.inning_id).filter
        (fun p => decide (p.choice_code = request.result_code))).map (fun p => p.player_id)
  else []

/-- Total pot awarded (games.py lines 1010-1012): floor share times winner
count when there are winners and a positive pot, otherwise 0. -/
def adjPotAwarded (db : DB) (game_id : Nat) (request : AdjudicationRequest) : Nat :=
  if adjWinners db game_id request ≠ [] ∧ 0 < settlementPot db game_id request.inning_id then
    (settlementPot db game_id request.inning_id / (adjWinners db game_id request).length)
      * (adjWinners db game_id request).length
  else 0

/-- Win ledger rows written by the award loop (games.py lines 1014-1024): one
per winner, each for the floor share, scoped to the inning. -/
def adjWinEntries (db : DB) (now game_id : Nat) (request : AdjudicationRequest) : List LedgerEntry :=
  if adjWinners db game_id request ≠ [] ∧ 0 < settlementPot db game_id request.inning_id then
    (adjWinners db game_id request).map (fun w =>
      ⟨game_id, some request.inning_id, some w,
       ((settlementPot db game_id request.inning_id / (adjWinners db game_id request).length : Nat) : Int),
       "win", now⟩)
  else []

/-- The miss bookkeeping loop of `adjudicate_outcome` (games.py lines
1026-1059): one zero-amount miss entry per game player who either has no
final pick for the inning or picked a wrong code while the result was not
N. -/
def missEntries (db : DB) (now game_id inning_id : Nat) (picks : List Pick) (result_code : Code) :
    List LedgerEntry :=
  ((db.players.filter (fun p => decide (p.game_id = game_id))).map (fun p => p.id)).filterMap
    (fun pid =>
      match picks.find? (fun p => decide (p.player_id = pid)) with
      | none => some ⟨game_id, some inning_id, some pid, 0, "miss", now⟩
      | some player_pick =>
        if player_pick.choice_code ≠ result_code ∧ result_code ≠ Code.N then
          some ⟨game_id, some inning_id, some pid, 0, "miss", now⟩
        else none)

/-- Out increment applied by `adjudicate_outcome` (games.py lines 1061-1068):
two for D, three for T, one for every other code, clamped to 3. -/
def adjNewOuts (outs : Nat) (result_code : Code) : Nat :=
  if result_code = Code.D then min 3 (outs + 2)
  else if result_code = Code.T then min 3 (outs + 3)
  else min 3 (outs + 1)

/-- The ledger after settlement: win rows then miss rows are appended. -/
def adjLedger (db : DB) (now game_id : Nat) (request : AdjudicationRequest) : List LedgerEntry :=
  db.ledger ++ adjWinEntries db now game_id request
    ++ missEntries db now game_id request.inning_id (finalPicks db game_id request.inning_id)
         request.result_code

/-- The successor inning-half opened on the third out (games.py lines
1084-1121): bottom of the same inning when the closed half was the top,
otherwise top of the next inning; fresh halves start at 0 outs and
unlocked. -/
def nextInning (db : DB) (game_id : Nat) (inning : Inning) : Inning :=
  ⟨db.fresh, game_id,
   (if inning.half = "top" then inning.inning_number else inning.inning_number + 1),
   (if inning.half = "top" then "bottom" else "top"), 0, false, none⟩

/-- Embedding of the `adjudicate_outcome` endpoint (games.py lines 932-1132):
authority check, open-inning check, pot from all inning-scoped ledger rows,
winners from matching final picks, floor-division pot split, miss
bookkeeping, out increment clamped at 3, and on the third out closing the
half and opening its successor with a fresh turn. -/
def adjudicate_outcome (db : DB) (now : Nat) (game_id uid : Nat) (request : AdjudicationRequest) :
    Except ApiErr (DB × AdjudicationResponse) :=
  match findGame db game_id with
  | none => .error .gameNotFound
  | some game =>
  if game.status ≠ "active" then .error .gameNotActive
  else
  match findPlayer db game_id uid with
  | none => .error .notAPlayer
  | some game_player =>
  match adjudicateAuth db game game_player request.inning_id with
  | .error e => .error e
  | .ok _ =>
  match db.innings.find? (fun i => decide (i.id = request.inning_id)) with
  | none => .error .inningNotFound
  | some inning =>
  if inning.game_id ≠ game_id then .error .inningNotFound
  else if inning.closed_at.isSome then .error .inningClosed
  else if 3 ≤ adjNewOuts inning.outs request.result_code then
    .ok ({ db with
            innings := db.innings.map (fun i =>
                if i.id = request.inning_id then
                  { inning with outs := adjNewOuts inning.outs request.result_code, closed_at := some now }
                else i)
              ++ [nextInning db game_id inning]
            turns := turnsWithNewHalf db now game_id (nextInning db game_id inning).id
            ledger := adjLedger db now game_id request
            fresh := db.fresh + 1 },
         mkAdjudicationResponse request.inning_id request.result_code (adjWinners db game_id request)
           (adjPotAwarded db game_id request) (adjNewOuts inning.outs request.result_code) true true)
  else
    .ok ({ db with
            innings := db.innings.map (fun i =>
                if i.id = request.inning_id then
                  { inning with outs := adjNewOuts inning.outs request.result_code }
                else i)
            ledger := adjLedger db now game_id request },
         mkAdjudicationResponse request.inning_id request.result_code (adjWinners db game_id request)
           (adjPotAwarded db game_id request) (adjNewOuts inning.outs request.result_code) false false)

/-- One state-mutating request against the store. -/
inductive Op where
  | upd (now game_id uid : Nat) (payload : GameUpdateRequest)
  | pick (now game_id uid : Nat) (request : PickCreateRequest)
  | amend (now game_id uid pick_id : Nat) (new_code : Code)
  | adjudicate (now game_id uid : Nat) (request : AdjudicationRequest)

/-- Transactional execution of one request: a failed request rolls back and
leaves the store unchanged. -/
def step (db : DB) (op : Op) : DB :=
  match op with
  | .upd now gid uid p =>
    match update_game db now gid uid p with
    | .ok (db', _) => db'
    | .error _ => db
  | .pick now gid uid r =>
    match create_pick db now gid uid r with
    | .ok (db', _) => db'
    | .error _ => db
  | .amend now gid uid pid c =>
    match amend_pick db now gid uid pid c with
    | .ok (db', _) => db'
    | .error _ => db
  | .adjudicate now gid uid r =>
    match adjudicate_outcome db now gid uid r with
    | .ok (db', _) => db'
    | .error _ => db

/-- Execution of a sequence of requests. -/
def run (db : DB) (ops : List Op) : DB :=
  ops.foldl step db

/-- Pot formula as claim C1 and the spec state it: absolute value of the sum
over the negative ledger entries scoped to the inning-half. -/
def specNegPot (db : DB) (game_id inning_id : Nat) : Nat :=
  (ledgerSum ((inningScoped db game_id inning_id).filter
      (fun e => decide (e.amount_dollars < 0)))).natAbs

/-- Pot formula as the amended claim C1 states it: absolute value of the sum
over all ledger entries scoped to the inning-half, positive rows included. -/
def specAllPot (db : DB) (game_id inning_id : Nat) : Nat :=
  (ledgerSum (inningScoped db game_id inning_id)).natAbs

/-- Out delta per result code as the spec states it. -/
def specOutDelta (result_code : Code) : Nat :=
  match result_code with
  | Code.D => 2
  | Code.T => 3
  | _ => 1

/-- The games table after a successful settings update. -/
def updatedGames (db : DB) (game_id : Nat) (p : GameUpdateRequest) : List Game :=
  db.games.map (fun g => if g.id = game_id then applyGamePatch g p else g)

/-- Inversion for a successful `update_game`: only the games and events tables
change, and the games table change is the in-place patch of the addressed
game row. -/
theorem update_game_ok_inv (db : DB) (now game_id uid : Nat) (p : GameUpdateRequest)
    (db' : DB) (g : Game) (h : update_game db now game_id uid p = .ok (db', g)) :
    db'.innings = db.innings ∧ db'.fresh = db.fresh ∧ db'.picks = db.picks ∧
    db'.ledger = db.ledger ∧ db'.amendments = db.amendments ∧ db'.turns = db.turns ∧
    db'.games = updatedGames db game_id p := by
  unfold update_game at h
  repeat' split at h
  all_goals simp_all [updatedGames]
  all_goals (obtain ⟨h1, h2⟩ := h; subst h1; simp)

/-- Store with one pending game whose admin is user 100, and no innings. -/
def c3Db : DB :=
  { games := [⟨1, 1, "admin_only", none, none, "pending", 100⟩]
    players := [⟨10, 1, 100, 1, true⟩]
    innings := [], turns := [], picks := [], amendments := [], ledger := [], events := []
    fresh := 20 }

/-- The admin moves the pending game to active through the settings update. -/
def c3Run : Except ApiErr (DB × Game) :=
  update_game c3Db 7 1 100 { status := some "active" }

/-- C3, counterexample: the settings update does move the game to active, but
it creates no inning-half at all — the innings table is still empty after the
transition, so no half with inning number 1, top, 0 outs exists. -/
theorem c3_counterexample :
    c3Run.map (fun x => x.2.status) = Except.ok "active" ∧
    c3Run.map (fun x => x.1.innings) = Except.ok [] :=
  ⟨rfl, rfl⟩

/-- C3 as amended: a successful settings update (in particular the pending to
active transition) changes the game row only and never creates an
inning-half; the innings table is unchanged, so the first half must come from
elsewhere. -/
theorem c3_amended_no_inning_created (db : DB) (now game_id uid : Nat) (p : GameUpdateRequest)
    (db' : DB) (g : Game) (h : update_game db now game_id uid p = .ok (db', g)) :
    db'.innings = db.innings :=
  (update_game_ok_inv db now game_id uid p db' g h).1

/-- State reached by the C3 run. -/
def c3DbAfter : DB :=
  match c3Run with
  | .ok x => x.1
  | .error _ => c3Db

/-- Game row returned by the C3 run. -/
def c3GameAfter : Game :=
  match c3Run with
  | .ok x => x.2
  | .error _ => ⟨0, 0, "", none, none, "", 0⟩

/-- Witness for the amended C3 at the concrete pending-to-active run. -/
theorem c3_witness : c3DbAfter.innings = c3Db.innings :=
  c3_amended_no_inning_created c3Db 7 1 100 { status := some "active" } c3DbAfter c3GameAfter rfl

/-- Store with one active game whose admin is user 100. -/
def c6ActiveDb : DB :=
  { games := [⟨1, 1, "admin_only", none, none, "active", 100⟩]
    players := [⟨10, 1, 100, 1, true⟩]
    innings := [], turns := [], picks := [], amendments := [], ledger := [], events := []
    fresh := 20 }

/-- Store with one final game whose admin is user 100. -/
def c6FinalDb : DB :=
  { games := [⟨1, 1, "admin_only", none, none, "final", 100⟩]
    players := [⟨10, 1, 100, 1, true⟩]
    innings := [], turns := [], picks := [], amendments := [], ledger := [], events := []
    fresh := 20 }

/-- C6, counterexample: status does not move only forward, and final is not
fully terminal.  An active game is happily moved back to pending by the
settings update, and the ante of a final game is happily changed. -/
theorem c6_counterexample :
    (update_game c6ActiveDb 7 1 100 { status := some "pending" }).map (fun x => x.2.status)
        = Except.ok "pending" ∧
    (update_game c6FinalDb 7 1 100 { ante_dollars := some 9 }).map (fun x => x.2.ante_dollars)
        = Except.ok 9 :=
  ⟨rfl, rfl⟩

/-- C6 as amended: the settings update rejects any status value supplied for a
final game and rejects the direct pending to final transition, but any other
supplied status is applied — including the backward active to pending move —
and a final game still accepts changes to its non-status settings. -/
theorem c6_amended_status_transitions (db : DB) (now game_id uid : Nat) (p : GameUpdateRequest)
    (game : Game) (hg : findGame db game_id = some game) (q : GamePlayer)
    (hadmin : db.players.find?
        (fun r => decide (r.game_id = game_id ∧ r.user_id = uid ∧ r.is_admin = true)) = some q)
    (hmode : badMode p = false) :
    (game.status = "final" → ∀ s, p.status = some s →
        (s = "pending" ∨ s = "active" ∨ s = "final") →
        update_game db now game_id uid p = .error .statusOfFinalGame) ∧
    (game.status = "pending" → p.status = some "final" →
        update_game db now game_id uid p = .error .finalizePendingGame) ∧
    (game.status = "final" → p.status = none →
        update_game db now game_id uid p =
          .ok ({ db with games := updatedGames db game_id p
                         events := db.events ++
                           (if patchHasChanges p then [⟨game_id, updateEventType p, some uid, now⟩] else []) },
               applyGamePatch game p)) ∧
    (game.status = "active" → p.status = some "pending" →
        update_game db now game_id uid p =
          .ok ({ db with games := updatedGames db game_id p
                         events := db.events ++ [⟨game_id, updateEventType p, some uid, now⟩] },
               applyGamePatch game p) ∧
        (applyGamePatch game p).status = "pending") := by
  refine ⟨?_, ?_, ?_, ?_⟩
  · intro hfin s hs hvalid
    unfold update_game
    rw [hg, hadmin, hmode, hs]
    simp only [Bool.false_eq_true, if_false]
    rcases hvalid with h | h | h <;> subst h <;> simp [hfin]
  · intro hpend hs
    unfold update_game
    rw [hg, hadmin, hmode, hs]
    simp [hpend]
  · intro hfin hs
    unfold update_game
    rw [hg, hadmin, hmode, hs]
    simp [updatedGames]
  · intro hact hs
    unfold update_game
    rw [hg, hadmin, hmode, hs]
    simp [hact, updatedGames, applyGamePatch, hs]

/-- Inversion for a successful `amend_pick`: exactly one amendment record with
the fixed 2-dollar fee and exactly one -2 fee ledger row are appended, both
scoped to the pick's inning and player, and the pick row is bumped in
place. -/
theorem amend_pick_ok_inv (db : DB) (now game_id uid pick_id : Nat) (new_code : Code)
    (db' : DB) (resp : PickResponse)
    (h : amend_pick db now game_id uid pick_id new_code = .ok (db', resp))
    (pick : Pick) (hp : db.picks.find? (fun p => decide (p.id = pick_id)) = some pick)
    (gp : GamePlayer) (hgp : findPlayer db game_id uid = some gp) :
    db'.amendments = db.amendments ++
      [⟨game_id, pick.inning_id, pick.id, gp.id, pick.choice_code, new_code, 2, now⟩] ∧
    db'.ledger = db.ledger ++
      [⟨game_id, some pick.inning_id, some gp.id, -2, "amend_fee", now⟩] ∧
    db'.picks = db.picks.map (fun p => if p.id = pick.id then
        { pick with choice_code := new_code, amend_count := pick.amend_count + 1 } else p) ∧
    resp.amend_count = pick.amend_count + 1 ∧ resp.choice_code = new_code ∧
    db'.innings = db.innings ∧ db'.turns = db.turns ∧ db'.games = db.games ∧
    db'.players = db.players ∧ db'.fresh = db.fresh := by
  unfold amend_pick at h
  rw [hgp, hp] at h
  repeat' split at h
  all_goals simp_all
  all_goals (obtain ⟨h1, h2⟩ := h; subst h1; subst h2; simp_all)

/-- Inversion for a successful `create_pick`: only the picks and events tables
change, by an in-place overwrite of the existing row for the key or by the
insertion of one fresh row with a zero amendment count. -/
theorem create_pick_ok_inv (db : DB) (now game_id uid : Nat) (request : PickCreateRequest)
    (db' : DB) (resp : PickResponse)
    (h : create_pick db now game_id uid request = .ok (db', resp))
    (gp : GamePlayer) (hgp : findPlayer db game_id uid = some gp) :
    db'.innings = db.innings ∧ db'.turns = db.turns ∧ db'.ledger = db.ledger ∧
    db'.amendments = db.amendments ∧ db'.games = db.games ∧ db'.players = db.players ∧
    ((∃ existing, db.picks.find? (pickKey game_id request.inning_id gp.id) = some existing ∧
        db'.picks = db.picks.map (fun p => if p.id = existing.id then
          { existing with choice_code := request.choice_code, is_final := true, created_at := now }
          else p) ∧
        resp = ⟨existing.id, request.choice_code, existing.amend_count, true, now⟩ ∧
        db'.fresh = db.fresh) ∨
      (db.picks.find? (pickKey game_id request.inning_id gp.id) = none ∧
        db'.picks = db.picks ++
          [⟨db.fresh, game_id, request.inning_id, gp.id, request.choice_code, 0, true, now⟩] ∧
        resp = ⟨db.fresh, request.choice_code, 0, true, now⟩ ∧
        db'.fresh = db.fresh + 1)) := by
  unfold create_pick at h
  rw [hgp] at h
  repeat' split at h
  all_goals simp_all
  all_goals (obtain ⟨h1, h2⟩ := h; subst h1; subst h2; simp_all)

/-- C10: every successful amendPick call charges the fixed fee of exactly 2
currency units — it appends exactly one PickAmendment record with
fee_dollars 2, exactly one ledger entry of amount -2 with reason amend_fee
scoped to the pick's inning-half and player, and increments the pick's
amend_count by exactly 1. -/
theorem c10_amend_fee_fixed (db : DB) (now game_id uid pick_id : Nat) (new_code : Code)
    (db' : DB) (resp : PickResponse)
    (h : amend_pick db now game_id uid pick_id new_code = .ok (db', resp))
    (pick : Pick) (hp : db.picks.find? (fun p => decide (p.id = pick_id)) = some pick)
    (gp : GamePlayer) (hgp : findPlayer db game_id uid = some gp) :
    db'.amendments = db.amendments ++
      [⟨game_id, pick.inning_id, pick.id, gp.id, pick.choice_code, new_code, 2, now⟩] ∧
    db'.ledger = db.ledger ++
      [⟨game_id, some pick.inning_id, some gp.id, -2, "amend_fee", now⟩] ∧
    resp.amend_count = pick.amend_count + 1 ∧
    db'.picks.find? (fun p => decide (p.id = pick_id)) =
      some { pick with choice_code := new_code, amend_count := pick.amend_count + 1 } := by
  obtain ⟨ham, hled, hpicks, hcnt, hcode, _⟩ :=
    amend_pick_ok_inv db now game_id uid pick_id new_code db' resp h pick hp gp hgp
  refine ⟨ham, hled, hcnt, ?_⟩
  have hid : pick.id = pick_id := by
    have := List.find?_some hp
    simpa using this
  subst hid
  rw [hpicks, List.find?_map]
  have hpf : ((fun p => decide (p.id = pick.id)) ∘ (fun p => if p.id = pick.id then
      { pick with choice_code := new_code, amend_count := pick.amend_count + 1 } else p))
      = (fun p => decide (p.id = pick.id)) := by
    funext x
    by_cases hx : x.id = pick.id <;> simp [hx]
  rw [hpf, hp]
  simp

/-- Store for the C10 witness: an active game, its admin on turn, a locked
open inning and one K pick with no amendments yet. -/
def c10Db : DB :=
  { games := [⟨1, 1, "admin_only", none, none, "active", 100⟩]
    players := [⟨10, 1, 100, 1, true⟩]
    innings := [⟨5, 1, 1, "top", 0, true, none⟩]
    turns := [⟨1, 5, 10, 1⟩]
    picks := [⟨20, 1, 5, 10, Code.K, 0, true, 2⟩]
    amendments := [], ledger := [], events := []
    fresh := 30 }

/-- The C10 run: the admin amends their pick from K to G. -/
def c10Run : Except ApiErr (DB × PickResponse) := amend_pick c10Db 9 1 100 20 Code.G

/-- State reached by the C10 run. -/
def c10DbAfter : DB :=
  match c10Run with
  | .ok x => x.1
  | .error _ => c10Db

/-- Response of the C10 run. -/
def c10Resp : PickResponse :=
  match c10Run with
  | .ok x => x.2
  | .error _ => ⟨0, Code.N, 0, false, 0⟩

/-- Witness for C10 at the concrete amendment run. -/
theorem c10_witness :
    c10DbAfter.amendments = c10Db.amendments ++ [⟨1, 5, 20, 10, Code.K, Code.G, 2, 9⟩] ∧
    c10DbAfter.ledger = c10Db.ledger ++ [⟨1, some 5, some 10, -2, "amend_fee", 9⟩] ∧
    c10Resp.amend_count = 0 + 1 ∧
    c10DbAfter.picks.find? (fun p => decide (p.id = 20)) =
      some { (⟨20, 1, 5, 10, Code.K, 0, true, 2⟩ : Pick) with
              choice_code := Code.G, amend_count := 0 + 1 } :=
  c10_amend_fee_fixed c10Db 9 1 100 20 Code.G c10DbAfter c10Resp rfl
    ⟨20, 1, 5, 10, Code.K, 0, true, 2⟩ rfl ⟨10, 1, 100, 1, true⟩ rfl

/-- C7: a pick whose current code is D or T and whose amend_count is already 2
or more cannot be amended further — the call fails with the amendment-cap
error and the transaction leaves the store unchanged, so the pick keeps its
code and count and no amendment record or ledger row appears. -/
theorem c7_dt_amendment_cap (db : DB) (now game_id uid pick_id : Nat) (new_code : Code)
    (game : Game) (hg : findGame db game_id = some game) (hact : game.status = "active")
    (gp : GamePlayer) (hgp : findPlayer db game_id uid = some gp)
    (pick : Pick) (hp : db.picks.find? (fun p => decide (p.id = pick_id)) = some pick)
    (hpg : pick.game_id = game_id) (hpo : pick.player_id = gp.id)
    (inning : Inning) (hin : db.innings.find? (fun i => decide (i.id = pick.inning_id)) = some inning)
    (hopen : inning.closed_at = none) (hlock : inning.between_ab_locked = true)
    (t : Turn) (ht : latestTurn db game_id pick.inning_id = some t)
    (hturn : t.current_player_id = gp.id)
    (hdt : pick.choice_code = Code.D ∨ pick.choice_code = Code.T)
    (hcnt : 2 ≤ pick.amend_count) :
    amend_pick db now game_id uid pick_id new_code = .error .maxAmendmentsReached ∧
    step db (Op.amend now game_id uid pick_id new_code) = db := by
  have hmain : amend_pick db now game_id uid pick_id new_code = .error .maxAmendmentsReached := by
    rcases hdt with hdt | hdt <;>
      simp [amend_pick, hg, hgp, hp, hin, ht, hact, hpg, hpo, hopen, hlock, hturn, hdt, hcnt]
  exact ⟨hmain, by simp [step, hmain]⟩

/-- Store for the C7 witness: like the C10 store but the pick is a D that has
already been amended twice. -/
def c7Db : DB :=
  { games := [⟨1, 1, "admin_only", none, none, "active", 100⟩]
    players := [⟨10, 1, 100, 1, true⟩]
    innings := [⟨5, 1, 1, "top", 0, true, none⟩]
    turns := [⟨1, 5, 10, 1⟩]
    picks := [⟨20, 1, 5, 10, Code.D, 2, true, 2⟩]
    amendments := [], ledger := [], events := []
    fresh := 30 }

/-- Witness for C7 at the concrete capped D pick. -/
theorem c7_witness :
    amend_pick c7Db 9 1 100 20 Code.G = .error .maxAmendmentsReached ∧
    step c7Db (Op.amend 9 1 100 20 Code.G) = c7Db :=
  c7_dt_amendment_cap c7Db 9 1 100 20 Code.G
    ⟨1, 1, "admin_only", none, none, "active", 100⟩ rfl rfl
    ⟨10, 1, 100, 1, true⟩ rfl
    ⟨20, 1, 5, 10, Code.D, 2, true, 2⟩ rfl rfl rfl
    ⟨5, 1, 1, "top", 0, true, none⟩ rfl rfl rfl
    ⟨1, 5, 10, 1⟩ rfl rfl (Or.inl rfl) (by decide)

/-- C9: submitting a pick is not gated by the between-at-bats lock flag — for
an open inning-half of an active game the current turn holder's submission
succeeds and stores the submitted code whatever the value of
between_ab_locked; the flag gates only the fee-bearing amendment path, which
rejects amendments whenever the flag is down. -/
theorem c9_pick_not_gated_by_lock (db : DB) (now game_id uid : Nat) (request : PickCreateRequest)
    (game : Game) (hg : findGame db game_id = some game) (hact : game.status = "active")
    (gp : GamePlayer) (hgp : findPlayer db game_id uid = some gp)
    (inning : Inning) (hin : db.innings.find? (fun i => decide (i.id = request.inning_id)) = some inning)
    (hgame : inning.game_id = game_id) (hopen : inning.closed_at = none)
    (b : Bool) (hlock : inning.between_ab_locked = b)
    (t : Turn) (ht : latestTurn db game_id request.inning_id = some t)
    (hturn : t.current_player_id = gp.id) :
    (create_pick db now game_id uid request).map (fun x => x.2.choice_code)
        = .ok request.choice_code ∧
    (b = false → ∀ pid pick, db.picks.find? (fun p => decide (p.id = pid)) = some pick →
        pick.game_id = game_id → pick.player_id = gp.id → pick.inning_id = request.inning_id →
        ∀ c, amend_pick db now game_id uid pid c = .error .notBetweenAtBats) := by
  constructor
  · unfold create_pick
    rw [hg, hgp, hin, ht]
    simp only [hact, hgame, hopen, hturn]
    cases hf : db.picks.find? (pickKey game_id request.inning_id gp.id) <;>
      simp [hf, hact, hgame, hopen, hturn, Except.map]
  · intro hb pid pick hp hpg hpo hpi c
    subst hb
    simp [amend_pick, hg, hgp, hp, hpi, hin, hact, hpg, hpo, hopen, hlock]

/-- Store for the C9 witness: an unlocked open inning with the admin on turn
and an existing K pick. -/
def c9Db : DB :=
  { games := [⟨1, 1, "admin_only", none, none, "active", 100⟩]
    players := [⟨10, 1, 100, 1, true⟩]
    innings := [⟨5, 1, 1, "top", 0, false, none⟩]
    turns := [⟨1, 5, 10, 1⟩]
    picks := [⟨20, 1, 5, 10, Code.K, 0, true, 2⟩]
    amendments := [], ledger := [], events := []
    fresh := 30 }

/-- Witness for C9 at the concrete unlocked inning: the submission overwrites
while the amendment path is rejected. -/
theorem c9_witness :
    (create_pick c9Db 9 1 100 ⟨5, Code.G⟩).map (fun x => x.2.choice_code) = .ok Code.G ∧
    (false = false → ∀ pid pick, c9Db.picks.find? (fun p => decide (p.id = pid)) = some pick →
        pick.game_id = 1 → pick.player_id = 10 → pick.inning_id = 5 →
        ∀ c, amend_pick c9Db 9 1 100 pid c = .error .notBetweenAtBats) :=
  c9_pick_not_gated_by_lock c9Db 9 1 100 ⟨5, Code.G⟩
    ⟨1, 1, "admin_only", none, none, "active", 100⟩ rfl rfl
    ⟨10, 1, 100, 1, true⟩ rfl
    ⟨5, 1, 1, "top", 0, false, none⟩ rfl rfl rfl
    false rfl ⟨1, 5, 10, 1⟩ rfl rfl

/-- C8: submitting a pick twice for the same game, inning-half and player
before lock is idempotent in the overwrite sense — after the second
submission exactly one pick row exists for the key, it stores the last
submitted code with amend_count still 0, and neither submission touched the
ledger or the amendment table. -/
theorem c8_double_submit_idempotent (db : DB) (now1 now2 game_id uid inning_id : Nat)
    (c1 c2 : Code)
    (gp : GamePlayer) (hgp : findPlayer db game_id uid = some gp)
    (hnone : ∀ p ∈ db.picks, pickKey game_id inning_id gp.id p = false)
    (hfresh : ∀ p ∈ db.picks, p.id ≠ db.fresh)
    (db1 : DB) (r1 : PickResponse)
    (h1 : create_pick db now1 game_id uid ⟨inning_id, c1⟩ = .ok (db1, r1))
    (db2 : DB) (r2 : PickResponse)
    (h2 : create_pick db1 now2 game_id uid ⟨inning_id, c2⟩ = .ok (db2, r2)) :
    db2.picks.filter (pickKey game_id inning_id gp.id)
      = [⟨db.fresh, game_id, inning_id, gp.id, c2, 0, true, now2⟩] ∧
    (db2.picks.filter (pickKey game_id inning_id gp.id)).length = 1 ∧
    r2.choice_code = c2 ∧ r2.amend_count = 0 ∧
    db2.ledger = db.ledger ∧ db2.amendments = db.amendments := by
  have hfindnone : db.picks.find? (pickKey game_id inning_id gp.id) = none :=
    List.find?_eq_none.mpr (fun x hx => by simp [hnone x hx])
  obtain ⟨-, -, hled1, ham1, -, hpl1, hcase1⟩ :=
    create_pick_ok_inv db now1 game_id uid ⟨inning_id, c1⟩ db1 r1 h1 gp hgp
  rcases hcase1 with ⟨e, he, -, -, -⟩ | ⟨-, hp1, hr1, hf1⟩
  · rw [hfindnone] at he
    cases he
  have hgp1 : findPlayer db1 game_id uid = some gp := by
    unfold findPlayer at hgp ⊢
    rw [hpl1]
    exact hgp
  obtain ⟨-, -, hled2, ham2, -, -, hcase2⟩ :=
    create_pick_ok_inv db1 now2 game_id uid ⟨inning_id, c2⟩ db2 r2 h2 gp hgp1
  have hfind1 : db1.picks.find? (pickKey game_id inning_id gp.id)
      = some ⟨db.fresh, game_id, inning_id, gp.id, c1, 0, true, now1⟩ := by
    rw [hp1, List.find?_append, hfindnone]
    simp [pickKey]
  rcases hcase2 with ⟨e2, he2, hp2, hr2, -⟩ | ⟨hn2, -, -, -⟩
  swap
  · rw [hfind1] at hn2
    cases hn2
  rw [hfind1] at he2
  obtain rfl : e2 = ⟨db.fresh, game_id, inning_id, gp.id, c1, 0, true, now1⟩ :=
    (Option.some.inj he2).symm
  have hmapid : db.picks.map (fun p =>
      if p.id = (⟨db.fresh, game_id, inning_id, gp.id, c1, 0, true, now1⟩ : Pick).id then
        (⟨db.fresh, game_id, inning_id, gp.id, c2, 0, true, now2⟩ : Pick) else p) = db.picks := by
    have h := List.map_congr_left (l := db.picks)
      (f := fun p => if p.id = (⟨db.fresh, game_id, inning_id, gp.id, c1, 0, true, now1⟩ : Pick).id then
        (⟨db.fresh, game_id, inning_id, gp.id, c2, 0, true, now2⟩ : Pick) else p)
      (g := id) (fun p hp => by simp [hfresh p hp])
    simpa using h
  have hpicks2 : db2.picks = db.picks ++ [⟨db.fresh, game_id, inning_id, gp.id, c2, 0, true, now2⟩] := by
    rw [hp2, hp1, List.map_append, hmapid]
    simp
  have hfilter : db2.picks.filter (pickKey game_id inning_id gp.id)
      = [⟨db.fresh, game_id, inning_id, gp.id, c2, 0, true, now2⟩] := by
    rw [hpicks2, List.filter_append]
    rw [List.filter_eq_nil_iff.mpr (fun x hx => by simp [hnone x hx])]
    simp [pickKey]
  refine ⟨hfilter, by rw [hfilter]; rfl, by rw [hr2], by rw [hr2], hled2.trans hled1, ham2.trans ham1⟩

/-- Store for the C8 witness: an unlocked open inning with the admin on turn
and no picks yet. -/
def c8Db : DB :=
  { games := [⟨1, 1, "admin_only", none, none, "active", 100⟩]
    players := [⟨10, 1, 100, 1, true⟩]
    innings := [⟨5, 1, 1, "top", 0, false, none⟩]
    turns := [⟨1, 5, 10, 1⟩]
    picks := [], amendments := [], ledger := [], events := []
    fresh := 30 }

/-- First C8 submission: player 10 picks K. -/
def c8Run1 : Except ApiErr (DB × PickResponse) := create_pick c8Db 8 1 100 ⟨5, Code.K⟩

/-- State after the first C8 submission. -/
def c8Db1 : DB :=
  match c8Run1 with
  | .ok x => x.1
  | .error _ => c8Db

/-- Response of the first C8 submission. -/
def c8R1 : PickResponse :=
  match c8Run1 with
  | .ok x => x.2
  | .error _ => ⟨0, Code.N, 0, false, 0⟩

/-- Second C8 submission: the same player resubmits with G. -/
def c8Run2 : Except ApiErr (DB × PickResponse) := create_pick c8Db1 9 1 100 ⟨5, Code.G⟩

/-- State after the second C8 submission. -/
def c8Db2 : DB :=
  match c8Run2 with
  | .ok x => x.1
  | .error _ => c8Db

/-- Response of the second C8 submission. -/
def c8R2 : PickResponse :=
  match c8Run2 with
  | .ok x => x.2
  | .error _ => ⟨0, Code.N, 0, false, 0⟩

/-- Witness for C8 at the concrete double submission. -/
theorem c8_witness :
    c8Db2.picks.filter (pickKey 1 5 10) = [⟨30, 1, 5, 10, Code.G, 0, true, 9⟩] ∧
    (c8Db2.picks.filter (pickKey 1 5 10)).length = 1 ∧
    c8R2.choice_code = Code.G ∧ c8R2.amend_count = 0 ∧
    c8Db2.ledger = c8Db.ledger ∧ c8Db2.amendments = c8Db.amendments :=
  c8_double_submit_idempotent c8Db 8 9 1 100 5 Code.K Code.G
    ⟨10, 1, 100, 1, true⟩ rfl (by decide) (by decide)
    c8Db1 c8R1 rfl c8Db2 c8R2 rfl

/-- Inversion for a successful `adjudicate_outcome`: the adjudicated inning
was found open and owned by the game, the response is built from the winner
list, pot split and clamped out count, the ledger gains the win and miss
rows, and the innings and turns tables either record a third out (the half
closing and its successor opening with a fresh turn) or just the new out
count. -/
theorem adjudicate_ok_inv (db : DB) (now game_id uid : Nat) (request : AdjudicationRequest)
    (db' : DB) (resp : AdjudicationResponse)
    (h : adjudicate_outcome db now game_id uid request = .ok (db', resp)) :
    ∃ inning, db.innings.find? (fun i => decide (i.id = request.inning_id)) = some inning ∧
      inning.game_id = game_id ∧ inning.closed_at = none ∧
      resp.inning_id = request.inning_id ∧ resp.result_code = request.result_code ∧
      resp.winners = adjWinners db game_id request ∧
      resp.pot_awarded = adjPotAwarded db game_id request ∧
      resp.new_outs = adjNewOuts inning.outs request.result_code ∧
      db'.ledger = adjLedger db now game_id request ∧
      db'.games = db.games ∧ db'.players = db.players ∧ db'.picks = db.picks ∧
      db'.amendments = db.amendments ∧
      ((3 ≤ adjNewOuts inning.outs request.result_code ∧
        resp.inning_closed = true ∧ resp.next_inning_started = true ∧
        db'.innings = db.innings.map (fun i => if i.id = request.inning_id then
            { inning with outs := adjNewOuts inning.outs request.result_code, closed_at := some now }
          else i) ++ [nextInning db game_id inning] ∧
        db'.turns = turnsWithNewHalf db now game_id (nextInning db game_id inning).id ∧
        db'.fresh = db.fresh + 1) ∨
       (adjNewOuts inning.outs request.result_code < 3 ∧
        resp.inning_closed = false ∧ resp.next_inning_started = false ∧
        db'.innings = db.innings.map (fun i => if i.id = request.inning_id then
            { inning with outs := adjNewOuts inning.outs request.result_code } else i) ∧
        db'.turns = db.turns ∧ db'.fresh = db.fresh)) := by
  unfold adjudicate_outcome at h
  repeat' split at h
  all_goals cases h
  all_goals first
    | exact ⟨_, by assumption, by omega, Option.not_isSome_iff_eq_none.mp (by assumption),
        rfl, rfl, rfl, rfl, rfl, rfl, rfl, rfl, rfl, rfl,
        Or.inl ⟨by assumption, rfl, rfl, rfl, rfl, rfl⟩⟩
    | exact ⟨_, by assumption, by omega, Option.not_isSome_iff_eq_none.mp (by assumption),
        rfl, rfl, rfl, rfl, rfl, rfl, rfl, rfl, rfl, rfl,
        Or.inr ⟨by omega, rfl, rfl, rfl, rfl, rfl⟩⟩

/-- Every row produced by the award loop carries reason win. -/
theorem adjWinEntries_reason (db : DB) (now game_id : Nat) (request : AdjudicationRequest) :
    ∀ e ∈ adjWinEntries db now game_id request, e.reason = "win" := by
  intro e he
  unfold adjWinEntries at he
  split at he
  · obtain ⟨w, -, rfl⟩ := List.mem_map.mp he
    rfl
  · cases he

/-- Every row produced by the miss loop carries reason miss. -/
theorem missEntries_reason (db : DB) (now game_id inning_id : Nat) (picks : List Pick)
    (result_code : Code) :
    ∀ e ∈ missEntries db now game_id inning_id picks result_code, e.reason = "miss" := by
  intro e he
  unfold missEntries at he
  obtain ⟨pid, -, hf⟩ := List.mem_filterMap.mp he
  split at hf
  · cases hf
    rfl
  · split at hf
    · cases hf
      rfl
    · cases hf

/-- The pot actually awarded never exceeds the settlement pot. -/
theorem adjPotAwarded_le (db : DB) (game_id : Nat) (request : AdjudicationRequest) :
    adjPotAwarded db game_id request ≤ settlementPot db game_id request.inning_id := by
  unfold adjPotAwarded
  split
  · exact Nat.div_mul_le_self _ _
  · exact Nat.zero_le _

/-- Store for the C1 counterexample: the half carries two 2-dollar fee rows
and one 3-dollar win row from an earlier settlement of the same half, and
player 10 holds the only final pick, a K. -/
def c1Db : DB :=
  { games := [⟨1, 1, "admin_only", none, none, "active", 100⟩]
    players := [⟨10, 1, 100, 1, true⟩]
    innings := [⟨5, 1, 1, "top", 0, false, none⟩]
    turns := [⟨1, 5, 10, 1⟩]
    picks := [⟨20, 1, 5, 10, Code.K, 0, true, 2⟩]
    amendments := []
    ledger := [⟨1, some 5, some 10, -2, "amend_fee", 3⟩, ⟨1, some 5, some 10, -2, "amend_fee", 4⟩,
               ⟨1, some 5, some 10, 3, "win", 5⟩]
    events := []
    fresh := 30 }

/-- C1, counterexample: the claim predicts a pot of 4 — the absolute sum of
the negative rows -2 and -2 — but the sole winner of this adjudication is
awarded 1, because the +3 win row scoped to the half enters the sum before
the absolute value is taken; positive rows do contribute. -/
theorem c1_counterexample :
    specNegPot c1Db 1 5 = 4 ∧
    (adjudicate_outcome c1Db 9 1 100 ⟨5, Code.K⟩).map (fun x => x.2.winners) = Except.ok [10] ∧
    (adjudicate_outcome c1Db 9 1 100 ⟨5, Code.K⟩).map (fun x => x.2.pot_awarded) = Except.ok 1 ∧
    (1 : Nat) ≠ specNegPot c1Db 1 5 :=
  ⟨rfl, rfl, rfl, by decide⟩

/-- C1 as amended: the pot used to settle an adjudication is the absolute
value of the sum over ALL ledger entries scoped to that half — positive
entries scoped to the half offset the negative ones before the absolute
value — and the award reported is the floor split of that pot over the
winners. -/
theorem c1_amended_pot_sums_all_entries (db : DB) (now game_id uid : Nat)
    (request : AdjudicationRequest) (db' : DB) (resp : AdjudicationResponse)
    (h : adjudicate_outcome db now game_id uid request = .ok (db', resp)) :
    resp.pot_awarded =
      (if resp.winners ≠ [] ∧ 0 < specAllPot db game_id request.inning_id then
        (specAllPot db game_id request.inning_id / resp.winners.length) * resp.winners.length
      else 0) := by
  obtain ⟨inning, -, -, -, -, -, hw, hpot, -, -, -, -, -, -, -⟩ :=
    adjudicate_ok_inv db now game_id uid request db' resp h
  rw [hpot, hw]
  rfl

/-- The C1 adjudication run. -/
def c1Run : Except ApiErr (DB × AdjudicationResponse) := adjudicate_outcome c1Db 9 1 100 ⟨5, Code.K⟩

/-- State reached by the C1 run. -/
def c1DbAfter : DB :=
  match c1Run with
  | .ok x => x.1
  | .error _ => c1Db

/-- Response of the C1 run. -/
def c1Resp : AdjudicationResponse :=
  match c1Run with
  | .ok x => x.2
  | .error _ => ⟨0, Code.N, [], 0, 0, false, false⟩

/-- Witness for the amended C1 at the concrete mixed-sign ledger. -/
theorem c1_witness :
    c1Resp.pot_awarded =
      (if c1Resp.winners ≠ [] ∧ 0 < specAllPot c1Db 1 5 then
        (specAllPot c1Db 1 5 / c1Resp.winners.length) * c1Resp.winners.length
      else 0) :=
  c1_amended_pot_sums_all_entries c1Db 9 1 100 ⟨5, Code.K⟩ c1DbAfter c1Resp rfl

/-- Store for the C4 counterexample: three players, all final picks K, and a
pot of 2 from a single fee row. -/
def c4Db : DB :=
  { games := [⟨1, 1, "admin_only", none, none, "active", 100⟩]
    players := [⟨10, 1, 100, 1, true⟩, ⟨11, 1, 101, 2, false⟩, ⟨12, 1, 102, 3, false⟩]
    innings := [⟨5, 1, 1, "top", 0, false, none⟩]
    turns := [⟨1, 5, 10, 1⟩]
    picks := [⟨20, 1, 5, 10, Code.K, 0, true, 2⟩, ⟨21, 1, 5, 11, Code.K, 0, true, 2⟩,
              ⟨22, 1, 5, 12, Code.K, 0, true, 2⟩]
    amendments := []
    ledger := [⟨1, some 5, some 10, -2, "amend_fee", 3⟩]
    events := []
    fresh := 30 }

/-- C4, counterexample: three winners split a pot of 2, the floor share is
2 div 3 = 0, and every winner receives a win ledger entry of amount 0 — not
a positive one as the claim asserts. -/
theorem c4_counterexample :
    (adjudicate_outcome c4Db 9 1 100 ⟨5, Code.K⟩).map (fun x => x.2.winners)
        = Except.ok [10, 11, 12] ∧
    0 < settlementPot c4Db 1 5 ∧
    settlementPot c4Db 1 5 / 3 = 0 ∧
    (adjudicate_outcome c4Db 9 1 100 ⟨5, Code.K⟩).map
        (fun x => (x.1.ledger.filter (fun e => decide (e.reason = "win"))).map
          (fun e => e.amount_dollars))
      = Except.ok [0, 0, 0] :=
  ⟨rfl, by decide, by decide, rfl⟩

/-- C4 as amended: winners are exactly the final picks matching the result
(none on N); with winners and a positive pot each winner receives exactly one
win ledger entry of pot div winner-count — an amount that is zero, not
positive, whenever the winners outnumber the pot — and the total awarded is
the floor share times the winner count, never exceeding the pot; the
remainder is not distributed. -/
theorem c4_amended_winners_and_split (db : DB) (now game_id uid : Nat)
    (request : AdjudicationRequest) (db' : DB) (resp : AdjudicationResponse)
    (h : adjudicate_outcome db now game_id uid request = .ok (db', resp)) :
    resp.winners = adjWinners db game_id request ∧
    (request.result_code = Code.N → resp.winners = []) ∧
    db'.ledger.filter (fun e => decide (e.reason = "win"))
      = db.ledger.filter (fun e => decide (e.reason = "win"))
        ++ adjWinEntries db now game_id request ∧
    (resp.winners ≠ [] ∧ 0 < settlementPot db game_id request.inning_id →
      adjWinEntries db now game_id request = resp.winners.map (fun w =>
        (⟨game_id, some request.inning_id, some w,
          ((settlementPot db game_id request.inning_id / resp.winners.length : Nat) : Int),
          "win", now⟩ : LedgerEntry)) ∧
      resp.pot_awarded
        = (settlementPot db game_id request.inning_id / resp.winners.length)
            * resp.winners.length) ∧
    resp.pot_awarded ≤ settlementPot db game_id request.inning_id := by
  obtain ⟨inning, -, -, -, -, -, hw, hpot, -, hled, -, -, -, -, -⟩ :=
    adjudicate_ok_inv db now game_id uid request db' resp h
  refine ⟨hw, ?_, ?_, ?_, ?_⟩
  · intro hN
    rw [hw]
    simp [adjWinners, hN]
  · have hwin : (adjWinEntries db now game_id request).filter (fun e => decide (e.reason = "win"))
        = adjWinEntries db now game_id request :=
      List.filter_eq_self.mpr
        (fun e he => by simp [adjWinEntries_reason db now game_id request e he])
    have hmiss : (missEntries db now game_id request.inning_id
          (finalPicks db game_id request.inning_id) request.result_code).filter
            (fun e => decide (e.reason = "win")) = [] :=
      List.filter_eq_nil_iff.mpr
        (fun e he => by
          simp [missEntries_reason db now game_id request.inning_id
            (finalPicks db game_id request.inning_id) request.result_code e he])
    rw [hled]
    unfold adjLedger
    rw [List.filter_append, List.filter_append, hwin, hmiss, List.append_nil]
  · intro hcond
    rw [hw] at hcond
    refine ⟨?_, ?_⟩
    · rw [hw]
      unfold adjWinEntries
      rw [if_pos hcond]
    · rw [hpot, hw]
      unfold adjPotAwarded
      rw [if_pos hcond]
  · rw [hpot]
    exact adjPotAwarded_le db game_id request

/-- The C4 adjudication run. -/
def c4Run : Except ApiErr (DB × AdjudicationResponse) := adjudicate_outcome c4Db 9 1 100 ⟨5, Code.K⟩

/-- State reached by the C4 run. -/
def c4DbAfter : DB :=
  match c4Run with
  | .ok x => x.1
  | .error _ => c4Db

/-- Response of the C4 run. -/
def c4Resp : AdjudicationResponse :=
  match c4Run with
  | .ok x => x.2
  | .error _ => ⟨0, Code.N, [], 0, 0, false, false⟩

/-- Witness for the amended C4 at the concrete three-winner run. -/
theorem c4_witness :
    c4Resp.winners = adjWinners c4Db 1 ⟨5, Code.K⟩ ∧
    ((⟨5, Code.K⟩ : AdjudicationRequest).result_code = Code.N → c4Resp.winners = []) ∧
    c4DbAfter.ledger.filter (fun e => decide (e.reason = "win"))
      = c4Db.ledger.filter (fun e => decide (e.reason = "win"))
        ++ adjWinEntries c4Db 9 1 ⟨5, Code.K⟩ ∧
    (c4Resp.winners ≠ [] ∧ 0 < settlementPot c4Db 1 5 →
      adjWinEntries c4Db 9 1 ⟨5, Code.K⟩ = c4Resp.winners.map (fun w =>
        (⟨1, some 5, some w, ((settlementPot c4Db 1 5 / c4Resp.winners.length : Nat) : Int),
          "win", 9⟩ : LedgerEntry)) ∧
      c4Resp.pot_awarded = (settlementPot c4Db 1 5 / c4Resp.winners.length)
        * c4Resp.winners.length) ∧
    c4Resp.pot_awarded ≤ settlementPot c4Db 1 5 :=
  c4_amended_winners_and_split c4Db 9 1 100 ⟨5, Code.K⟩ c4DbAfter c4Resp rfl

/-- C2: every adjudication sets the new out count to min 3 of the old count
plus the delta of the result code — 2 for D, 3 for T, 1 for K, G, F and N —
and the moment the count reaches 3 the half closes with its close timestamp
set, its successor opens (bottom of the same inning after a top half, top of
the next inning after a bottom half) with 0 outs and unlocked, and a fresh
Turn pointing at the game's turn-order-1 player is appended to the successor
in both cases. -/
theorem c2_outs_and_half_advance (db : DB) (now game_id uid : Nat)
    (request : AdjudicationRequest) (db' : DB) (resp : AdjudicationResponse)
    (h : adjudicate_outcome db now game_id uid request = .ok (db', resp))
    (inning : Inning)
    (hin : db.innings.find? (fun i => decide (i.id = request.inning_id)) = some inning)
    (fp : GamePlayer) (hfp : firstByTurnOrder db game_id = some fp)
    (_hfp1 : fp.turn_order = 1) :
    resp.new_outs = min 3 (inning.outs + specOutDelta request.result_code) ∧
    (3 ≤ resp.new_outs →
      resp.inning_closed = true ∧ resp.next_inning_started = true ∧
      db'.innings = db.innings.map (fun i => if i.id = request.inning_id then
          { inning with outs := resp.new_outs, closed_at := some now } else i)
        ++ [⟨db.fresh, game_id,
             (if inning.half = "top" then inning.inning_number else inning.inning_number + 1),
             (if inning.half = "top" then "bottom" else "top"), 0, false, none⟩] ∧
      db'.turns = db.turns ++ [⟨game_id, db.fresh, fp.id, now⟩]) ∧
    (resp.new_outs < 3 →
      resp.inning_closed = false ∧ resp.next_inning_started = false ∧
      db'.innings = db.innings.map (fun i => if i.id = request.inning_id then
          { inning with outs := resp.new_outs } else i) ∧
      db'.turns = db.turns) := by
  obtain ⟨inning2, hin2, -, -, -, -, -, -, houts, -, -, -, -, -, hcase⟩ :=
    adjudicate_ok_inv db now game_id uid request db' resp h
  rw [hin2] at hin
  obtain rfl : inning2 = inning := Option.some.inj hin
  have hdelta : adjNewOuts inning2.outs request.result_code
      = min 3 (inning2.outs + specOutDelta request.result_code) := by
    cases request.result_code <;> simp [adjNewOuts, specOutDelta]
  refine ⟨houts.trans hdelta, ?_, ?_⟩
  · intro h3
    rcases hcase with ⟨-, hic, hns, hinn, hturns, -⟩ | ⟨hlt, -, -, -, -, -⟩
    · refine ⟨hic, hns, ?_, ?_⟩
      · rw [houts]
        exact hinn
      · rw [hturns]
        unfold turnsWithNewHalf
        rw [hfp]
        rfl
    · rw [houts] at h3
      omega
  · intro h3
    rcases hcase with ⟨hge, -, -, -, -, -⟩ | ⟨-, hic, hns, hinn, hturns, -⟩
    · rw [houts] at h3
      omega
    · refine ⟨hic, hns, ?_, hturns⟩
      rw [houts]
      exact hinn

/-- Store for the C2 witness: an active game with two players, the bottom of
inning 3 already at 2 outs, and the admin on turn. -/
def c2Db : DB :=
  { games := [⟨1, 1, "admin_only", none, none, "active", 100⟩]
    players := [⟨10, 1, 100, 1, true⟩, ⟨11, 1, 101, 2, false⟩]
    innings := [⟨5, 1, 3, "bottom", 2, false, none⟩]
    turns := [⟨1, 5, 10, 1⟩]
    picks := [], amendments := [], ledger := [], events := []
    fresh := 40 }

/-- The C2 adjudication run: a K at 2 outs in the bottom half. -/
def c2Run : Except ApiErr (DB × AdjudicationResponse) := adjudicate_outcome c2Db 9 1 100 ⟨5, Code.K⟩

/-- State reached by the C2 run. -/
def c2DbAfter : DB :=
  match c2Run with
  | .ok x => x.1
  | .error _ => c2Db

/-- Response of the C2 run. -/
def c2Resp : AdjudicationResponse :=
  match c2Run with
  | .ok x => x.2
  | .error _ => ⟨0, Code.N, [], 0, 0, false, false⟩

/-- Witness for C2 at the concrete third out of a bottom half. -/
theorem c2_witness :
    c2Resp.new_outs = min 3 (2 + specOutDelta Code.K) ∧
    (3 ≤ c2Resp.new_outs →
      c2Resp.inning_closed = true ∧ c2Resp.next_inning_started = true ∧
      c2DbAfter.innings = c2Db.innings.map (fun i => if i.id = 5 then
          (⟨5, 1, 3, "bottom", c2Resp.new_outs, false, some 9⟩ : Inning) else i)
        ++ [⟨40, 1, 4, "top", 0, false, none⟩] ∧
      c2DbAfter.turns = c2Db.turns ++ [⟨1, 40, 10, 9⟩]) ∧
    (c2Resp.new_outs < 3 →
      c2Resp.inning_closed = false ∧ c2Resp.next_inning_started = false ∧
      c2DbAfter.innings = c2Db.innings.map (fun i => if i.id = 5 then
          (⟨5, 1, 3, "bottom", c2Resp.new_outs, false, none⟩ : Inning) else i) ∧
      c2DbAfter.turns = c2Db.turns) :=
  c2_outs_and_half_advance c2Db 9 1 100 ⟨5, Code.K⟩ c2DbAfter c2Resp rfl
    ⟨5, 1, 3, "bottom", 2, false, none⟩ rfl ⟨10, 1, 100, 1, true⟩ rfl rfl

/-- Inning-halves of one game with no close timestamp. -/
def openHalves (db : DB) (game_id : Nat) : List Inning :=
  db.innings.filter (fun i => decide (i.game_id = game_id ∧ i.closed_at = none))

/-- Well-formedness of the innings table: distinct primary keys, all of them
below the fresh-key counter. -/
def InningsWF (db : DB) : Prop :=
  (db.innings.map (fun i => i.id)).Nodup ∧ ∀ i ∈ db.innings, i.id < db.fresh

/-- The central invariant in pairwise form: two open innings of the same game
are the same row. -/
def OnePerGame (db : DB) : Prop :=
  ∀ i ∈ db.innings, ∀ j ∈ db.innings, i.game_id = j.game_id →
    i.closed_at = none → j.closed_at = none → i = j

/-- Invariant carried through every request. -/
def Inv (db : DB) : Prop := InningsWF db ∧ OnePerGame db

/-- The invariant only looks at the innings table and the key counter. -/
theorem inv_of_le (db db' : DB) (hi : db'.innings = db.innings) (hf : db.fresh ≤ db'.fresh)
    (hinv : Inv db) : Inv db' := by
  obtain ⟨⟨hnd, hlt⟩, hone⟩ := hinv
  refine ⟨⟨by rw [hi]; exact hnd, ?_⟩, ?_⟩
  · intro i hi'
    rw [hi] at hi'
    exact lt_of_lt_of_le (hlt i hi') hf
  · intro a ha b hb
    rw [hi] at ha hb
    exact hone a ha b hb

/-- A successful adjudication preserves the invariant: when the half closes,
the one open half of the game is replaced by the one fresh successor; when it
does not close, only the out count of the already open half changes. -/
theorem adjudicate_preserves_inv (db : DB) (now game_id uid : Nat)
    (request : AdjudicationRequest) (db' : DB) (resp : AdjudicationResponse)
    (h : adjudicate_outcome db now game_id uid request = .ok (db', resp))
    (hinv : Inv db) : Inv db' := by
  obtain ⟨⟨hnd, hlt⟩, hone⟩ := hinv
  obtain ⟨inning, hfind, hgid, hopen, -, -, -, -, -, -, -, -, -, -, hcase⟩ :=
    adjudicate_ok_inv db now game_id uid request db' resp h
  have hmem : inning ∈ db.innings := List.mem_of_find?_eq_some hfind
  have hid : inning.id = request.inning_id := by
    have := List.find?_some hfind
    simpa using this
  rcases hcase with ⟨-, -, -, hinn, -, hfresh⟩ | ⟨-, -, -, hinn, -, hfresh⟩
  · -- the half closed and its successor opened
    have hfid : ∀ x ∈ db.innings,
        (if x.id = request.inning_id then
            { inning with outs := adjNewOuts inning.outs request.result_code, closed_at := some now }
          else x).id = x.id := by
      intro x hx
      by_cases hxid : x.id = request.inning_id
      · simp [hxid, hid]
      · simp [hxid]
    have hidsmap : (db.innings.map (fun i => if i.id = request.inning_id then
        { inning with outs := adjNewOuts inning.outs request.result_code, closed_at := some now }
        else i)).map (fun i => i.id)
        = db.innings.map (fun i => i.id) := by
      rw [List.map_map]
      exact List.map_congr_left (fun x hx => hfid x hx)
    have hopenmap : ∀ x ∈ db.innings,
        (if x.id = request.inning_id then
            { inning with outs := adjNewOuts inning.outs request.result_code, closed_at := some now }
          else x).closed_at = none →
        (if x.id = request.inning_id then
            { inning with outs := adjNewOuts inning.outs request.result_code, closed_at := some now }
          else x) = x ∧ x.id ≠ request.inning_id := by
      intro x hx hcl
      by_cases hxid : x.id = request.inning_id
      · simp [hxid] at hcl
      · exact ⟨if_neg hxid, hxid⟩
    refine ⟨⟨?_, ?_⟩, ?_⟩
    · rw [hinn, List.map_append, hidsmap]
      refine List.Nodup.append hnd (by simp) (List.disjoint_singleton.mpr ?_)
      intro hmem'
      obtain ⟨i, hi, hieq⟩ := List.mem_map.mp hmem'
      exact absurd hieq (Nat.ne_of_lt (hlt i hi))
    · rw [hinn, hfresh]
      intro i hi
      rcases List.mem_append.mp hi with hi' | hi'
      · obtain ⟨x, hx, rfl⟩ := List.mem_map.mp hi'
        rw [hfid x hx]
        exact Nat.lt_succ_of_lt (hlt x hx)
      · rw [List.mem_singleton.mp hi']
        exact Nat.lt_succ_self _
    · intro a ha b hb hg hao hbo
      rw [hinn] at ha hb
      rcases List.mem_append.mp ha with ha' | ha'
      · obtain ⟨x, hx, rfl⟩ := List.mem_map.mp ha'
        obtain ⟨hfx, hxid⟩ := hopenmap x hx hao
        rcases List.mem_append.mp hb with hb' | hb'
        · obtain ⟨y, hy, rfl⟩ := List.mem_map.mp hb'
          obtain ⟨hfy, hyid⟩ := hopenmap y hy hbo
          rw [hfx, hfy]
          rw [hfx] at hao hg
          rw [hfy] at hbo hg
          exact hone x hx y hy hg hao hbo
        · rw [List.mem_singleton.mp hb'] at hg ⊢
          rw [hfx] at hao hg
          have hxg : x.game_id = inning.game_id := by
            rw [hgid]
            simpa [nextInning] using hg
          have := hone x hx inning hmem hxg hao hopen
          rw [this] at hxid
          exact absurd hid hxid
      · rw [List.mem_singleton.mp ha'] at hg ⊢
        rcases List.mem_append.mp hb with hb' | hb'
        · obtain ⟨y, hy, rfl⟩ := List.mem_map.mp hb'
          obtain ⟨hfy, hyid⟩ := hopenmap y hy hbo
          rw [hfy] at hbo hg
          have hyg : y.game_id = inning.game_id := by
            rw [hgid]
            simpa [nextInning] using hg.symm
          have := hone y hy inning hmem hyg hbo hopen
          rw [this] at hyid
          exact absurd hid hyid
        · rw [List.mem_singleton.mp hb']
  · -- the half stayed open with a new out count
    have hinj := List.inj_on_of_nodup_map hnd
    have hfid : ∀ x ∈ db.innings,
        (if x.id = request.inning_id then
            { inning with outs := adjNewOuts inning.outs request.result_code } else x).id
          = x.id := by
      intro x hx
      by_cases hxid : x.id = request.inning_id
      · simp [hxid, hid]
      · simp [hxid]
    refine ⟨⟨?_, ?_⟩, ?_⟩
    · have hmm : (db.innings.map (fun i => if i.id = request.inning_id then
          { inning with outs := adjNewOuts inning.outs request.result_code } else i)).map
            (fun i => i.id)
          = db.innings.map (fun i => i.id) := by
        rw [List.map_map]
        exact List.map_congr_left (fun x hx => hfid x hx)
      rw [hinn, hmm]
      exact hnd
    · rw [hinn, hfresh]
      intro i hi
      obtain ⟨x, hx, rfl⟩ := List.mem_map.mp hi
      rw [hfid x hx]
      exact hlt x hx
    · intro a ha b hb hg hao hbo
      rw [hinn] at ha hb
      obtain ⟨x, hx, rfl⟩ := List.mem_map.mp ha
      obtain ⟨y, hy, rfl⟩ := List.mem_map.mp hb
      by_cases hxid : x.id = request.inning_id <;> by_cases hyid : y.id = request.inning_id
      · simp [hxid, hyid]
      · rw [if_pos hxid] at hg ⊢
        rw [if_neg hyid] at hbo hg ⊢
        have hyg : y.game_id = inning.game_id := by simpa using hg.symm
        have := hone y hy inning hmem hyg hbo hopen
        rw [this] at hyid
        exact absurd hid hyid
      · rw [if_neg hxid] at hao hg ⊢
        rw [if_pos hyid] at hg ⊢
        have hxg : x.game_id = inning.game_id := by simpa using hg
        have := hone x hx inning hmem hxg hao hopen
        rw [this] at hxid
        exact absurd hid hxid
      · rw [if_neg hxid] at hao hg ⊢
        rw [if_neg hyid] at hbo hg ⊢
        exact hone x hx y hy hg hao hbo

/-- A successful pick submission leaves the innings table unchanged and never
lowers the fresh-key counter. -/
theorem create_pick_state (db : DB) (now game_id uid : Nat) (request : PickCreateRequest)
    (db' : DB) (resp : PickResponse)
    (h : create_pick db now game_id uid request = .ok (db', resp)) :
    db'.innings = db.innings ∧ db.fresh ≤ db'.fresh := by
  unfold create_pick at h
  repeat' split at h
  all_goals cases h
  all_goals exact ⟨rfl, by dsimp only; omega⟩

/-- A successful amendment leaves the innings table and the fresh-key counter
unchanged. -/
theorem amend_pick_state (db : DB) (now game_id uid pick_id : Nat) (new_code : Code)
    (db' : DB) (resp : PickResponse)
    (h : amend_pick db now game_id uid pick_id new_code = .ok (db', resp)) :
    db'.innings = db.innings ∧ db'.fresh = db.fresh := by
  unfold amend_pick at h
  repeat' split at h
  all_goals cases h
  all_goals exact ⟨rfl, rfl⟩

/-- Every single request preserves the invariant. -/
theorem step_preserves_inv (db : DB) (op : Op) (hinv : Inv db) : Inv (step db op) := by
  cases op with
  | upd now gid uid p =>
    simp only [step]
    cases hres : update_game db now gid uid p with
    | error e => exact hinv
    | ok x =>
      obtain ⟨hi, hf, -⟩ := update_game_ok_inv db now gid uid p x.1 x.2 (by rw [hres])
      exact inv_of_le db x.1 hi (le_of_eq hf.symm) hinv
  | pick now gid uid r =>
    simp only [step]
    cases hres : create_pick db now gid uid r with
    | error e => exact hinv
    | ok x =>
      obtain ⟨hi, hf⟩ := create_pick_state db now gid uid r x.1 x.2 (by rw [hres])
      exact inv_of_le db x.1 hi hf hinv
  | amend now gid uid pid c =>
    simp only [step]
    cases hres : amend_pick db now gid uid pid c with
    | error e => exact hinv
    | ok x =>
      obtain ⟨hi, hf⟩ := amend_pick_state db now gid uid pid c x.1 x.2 (by rw [hres])
      exact inv_of_le db x.1 hi (le_of_eq hf.symm) hinv
  | adjudicate now gid uid r =>
    simp only [step]
    cases hres : adjudicate_outcome db now gid uid r with
    | error e => exact hinv
    | ok x =>
      exact adjudicate_preserves_inv db now gid uid r x.1 x.2 (by rw [hres]) hinv

/-- Every sequence of requests preserves the invariant. -/
theorem run_preserves_inv (db : DB) (ops : List Op) (hinv : Inv db) : Inv (run db ops) := by
  induction ops generalizing db with
  | nil => exact hinv
  | cons op ops ih => exact ih (step db op) (step_preserves_inv db op hinv)

/-- Under the invariant the open halves of every game number at most one. -/
theorem openHalves_length_le_one (db : DB) (hinv : Inv db) (game_id : Nat) :
    (openHalves db game_id).length ≤ 1 := by
  obtain ⟨⟨hnd, -⟩, hone⟩ := hinv
  have hsub : List.Sublist ((openHalves db game_id).map (fun i => i.id))
      (db.innings.map (fun i => i.id)) :=
    (List.filter_sublist db.innings).map (fun i => i.id)
  have hnd' : ((openHalves db game_id).map (fun i => i.id)).Nodup := hnd.sublist hsub
  cases hl : openHalves db game_id with
  | nil => simp
  | cons a t =>
    cases t with
    | nil => simp
    | cons b t2 =>
      exfalso
      have hamem : a ∈ openHalves db game_id := by
        rw [hl]
        exact List.mem_cons_self a _
      have hbmem : b ∈ openHalves db game_id := by
        rw [hl]
        exact List.mem_cons_of_mem a (List.mem_cons_self b _)
      obtain ⟨ha1, ha2⟩ := List.mem_filter.mp hamem
      obtain ⟨hb1, hb2⟩ := List.mem_filter.mp hbmem
      have hag : a.game_id = game_id ∧ a.closed_at = none := by simpa using ha2
      have hbg : b.game_id = game_id ∧ b.closed_at = none := by simpa using hb2
      have hab : a = b :=
        hone a ha1 b hb1 (hag.1.trans hbg.1.symm) hag.2 hbg.2
      rw [hl] at hnd'
      simp at hnd'
      exact hnd'.1.1 (by rw [hab])

/-- C5: starting from a well-formed store satisfying the single-open-half
invariant, after every sequence of requests each game still has at most one
inning-half with a null close timestamp. -/
theorem c5_at_most_one_open_half (db : DB) (hinv : Inv db) (ops : List Op) (game_id : Nat) :
    (openHalves (run db ops) game_id).length ≤ 1 :=
  openHalves_length_le_one (run db ops) (run_preserves_inv db ops hinv) game_id

/-- Store for the C5 witness: one active game whose top of inning 1 is the
single open half. -/
def c5Db : DB :=
  { games := [⟨1, 1, "admin_only", none, none, "active", 100⟩]
    players := [⟨10, 1, 100, 1, true⟩, ⟨11, 1, 101, 2, false⟩]
    innings := [⟨5, 1, 1, "top", 0, false, none⟩]
    turns := [⟨1, 5, 10, 1⟩]
    picks := [⟨20, 1, 5, 10, Code.K, 0, true, 2⟩]
    amendments := []
    ledger := [⟨1, some 5, some 10, -2, "amend_fee", 3⟩]
    events := []
    fresh := 30 }

/-- Requests for the C5 witness: a triple closes the half, then a pick is
submitted into the freshly opened bottom half. -/
def c5Ops : List Op :=
  [Op.adjudicate 9 1 100 ⟨5, Code.T⟩, Op.pick 11 1 100 ⟨30, Code.G⟩]

/-- Witness for C5 at the concrete two-request run. -/
theorem c5_witness : (openHalves (run c5Db c5Ops) 1).length ≤ 1 :=
  c5_at_most_one_open_half c5Db
    ⟨⟨by decide, by decide⟩, by unfold OnePerGame; decide⟩ c5Ops 1

/-- Witness for the amended C6: applying it at the concrete final-game store
shows a status change on a final game is rejected. -/
theorem c6_witness :
    update_game c6FinalDb 7 1 100 ⟨none, none, none, none, some "active"⟩
      = .error .statusOfFinalGame := by
  have h := c6_amended_status_transitions c6FinalDb 7 1 100 ⟨none, none, none, none, some "active"⟩
    ⟨1, 1, "admin_only", none, none, "final", 100⟩ rfl ⟨10, 1, 100, 1, true⟩ rfl rfl
  exact h.1 rfl "active" rfl (Or.inr (Or.inl rfl))

end Gamblor
